import Mathlib

/-!
Shallow embedding of src/marketlearn/learning/msr/markov_switching.py
(class MarkovSwitchingRegression) and a verification of the claims made
about it.

Modelling conventions:
* numpy float64 arithmetic is modelled by exact real arithmetic over the
  Lean reals;
* a Python exception is an Except.error carrying the kind of exception;
* numpy vectors of length 2 are pairs, 2 by 2 matrices are pairs of
  pairs, time-indexed arrays are lists indexed by position;
* the instance attributes written by _normpdf (self.beta, self.var,
  self.xt, self.yt) are threaded explicitly as an MSRState value;
* the class configuration regime = 2 is fixed, as the source hardcodes
  the 2 by 2 transition matrix and the two-regime parameter layout;
* in Lean, x / 0 = 0 and Real.sqrt of a negative number is 0, where
  numpy would produce nan or inf; theorems that touch such a point only
  observe whether an exception is raised, or compare values produced
  away from those points, so the distinction never matters.
-/

namespace MSR

noncomputable section

/-- Kinds of Python exceptions the translated functions can raise.
invalidRegime is the ValueError from _beta and _var (the error kind the
spec names InvalidRegimeError), indexError the IndexError from an
out-of-range element access, shapeError the ValueError numpy raises on a
dimension mismatch in a dot product, linAlgError the LinAlgError from
np.linalg.cholesky on a matrix that is not positive definite,
valueError the ValueError from unpacking a wrong-sized sequence, and
attributeError the AttributeError from looking up a missing attribute. -/
inductive PyErr
  | invalidRegime
  | indexError
  | shapeError
  | linAlgError
  | valueError
  | attributeError
  deriving DecidableEq

/-- Whether a call returned normally, with no exception. -/
def isOk {α : Type} (e : Except PyErr α) : Bool :=
  match e with
  | .ok _ => true
  | .error _ => false

/-- numpy dot product of two 1-d arrays of equal length. -/
def dot (xs ys : List ℝ) : ℝ :=
  (List.zipWith (fun a b => a * b) xs ys).sum

/-- Translation of MarkovSwitchingRegression._sigmoid (lines 14-22). -/
def sigmoid (z : ℝ) : ℝ :=
  1 / (1 + Real.exp (-z))

/-- Translation of MarkovSwitchingRegression._transition_matrix
(lines 192-211): entry (0,0) is pii, (0,1) is 1 - pii, (1,1) is pjj and
(1,0) is 1 - pjj. -/
def transitionMatrix (pii pjj : ℝ) : (ℝ × ℝ) × (ℝ × ℝ) :=
  ((pii, 1 - pii), (1 - pjj, pjj))

/-- Translation of MarkovSwitchingRegression._beta (lines 44-63):
raises ValueError when the state is not 0 or 1, otherwise selects the
parameter block of the regime. -/
def beta (s : ℤ) (params1 params2 : List ℝ) : Except PyErr (List ℝ) :=
  if s = 0 ∨ s = 1 then .ok (if s = 0 then params1 else params2)
  else .error .invalidRegime

/-- Translation of MarkovSwitchingRegression._var (lines 65-80):
raises ValueError when the state is not 0 or 1, otherwise selects the
variance of the regime. -/
def var (s : ℤ) (var1 var2 : ℝ) : Except PyErr ℝ :=
  if s = 0 ∨ s = 1 then .ok (if s = 0 then var1 else var2)
  else .error .invalidRegime

/-- Translation of MarkovSwitchingRegression._normpdf (lines 82-115),
value component only; the attribute writes are carried by normpdfST.
params1 is guess[:4], params2 is guess[4:-2]; _beta receives
params1[:2] and params1[2:], and _var receives params2[0] and
params2[1], whose element accesses raise IndexError when guess is too
short.  The final expression is exactly the source's
((yt - xt @ beta) ** 2 / (-2.0 * var)) / sqrt(2 pi var): the source
never applies np.exp, and numpy raises a ValueError when the dot
product's operand lengths differ. -/
def normpdf (s : ℤ) (xt : List ℝ) (yt : ℝ) (guess : List ℝ) : Except PyErr ℝ :=
  let params1 := guess.take 4
  let params2 := (guess.take (guess.length - 2)).drop 4
  match beta s (params1.take 2) (params1.drop 2) with
  | .error e => .error e
  | .ok b =>
    match params2.get? 0, params2.get? 1 with
    | some v1, some v2 =>
      match var s v1 v2 with
      | .error e => .error e
      | .ok v =>
        if xt.length = b.length then
          .ok ((yt - dot xt b) ^ 2 / (-2 * v) / Real.sqrt (2 * Real.pi * v))
        else .error .shapeError
    | _, _ => .error .indexError

/-- The Gaussian density formula stated by the spec, section 4.4:
exp(-(y - m)^2 / (2 v)) / sqrt(2 pi v) with mean m and variance v.
This definition follows the spec's words and serves as the reference
the source's _normpdf is compared against. -/
def specGaussianDensity (m v y : ℝ) : ℝ :=
  Real.exp (-((y - m) ^ 2) / (2 * v)) / Real.sqrt (2 * Real.pi * v)

/-- The instance attributes that _normpdf assigns (self.beta, self.var,
self.xt, self.yt); none is set before the first _normpdf call. -/
structure MSRState where
  betaAttr : Option (List ℝ)
  varAttr : Option ℝ
  xtAttr : Option (List ℝ)
  ytAttr : Option ℝ

/-- The fresh object state: no attribute written yet. -/
def st0 : MSRState := ⟨none, none, none, none⟩

/-- Translation of MarkovSwitchingRegression._normpdf (lines 82-115)
with the attribute writes of lines 107-110 made explicit: the returned
state is the input state when the call raises before reaching those
lines, and the four freshly written attributes otherwise. -/
def normpdfST (s : ℤ) (xt : List ℝ) (yt : ℝ) (guess : List ℝ) (st : MSRState) :
    Except PyErr ℝ × MSRState :=
  let params1 := guess.take 4
  let params2 := (guess.take (guess.length - 2)).drop 4
  match beta s (params1.take 2) (params1.drop 2) with
  | .error e => (.error e, st)
  | .ok b =>
    match params2.get? 0, params2.get? 1 with
    | some v1, some v2 =>
      match var s v1 v2 with
      | .error e => (.error e, st)
      | .ok v =>
        if xt.length = b.length then
          ((.ok ((yt - dot xt b) ^ 2 / (-2 * v) / Real.sqrt (2 * Real.pi * v))),
            ⟨some b, some v, some xt, some yt⟩)
        else (.error .shapeError, ⟨some b, some v, some xt, some yt⟩)
    | _, _ => (.error .indexError, st)

/-- The methods defined on class MarkovSwitchingRegression in the
source file; an attribute lookup on any other name raises
AttributeError. -/
def msrMethodNames : List String :=
  ["_sigmoid", "_make_polynomial", "_linear_solve", "_beta", "_var",
   "_normpdf", "_loglikelihood", "_objective_func", "_transition_matrix",
   "fit"]

/-- Translation of MarkovSwitchingRegression.fit (lines 213-235).  The
statements before line 234 (polynomial expansion, the initial parameter
array built from sample variances) cannot raise for well-formed input
and their results feed only into the call on line 234, which looks up
the attribute _filtered_probabalities.  No method of that name is
defined anywhere in the class, so the lookup raises AttributeError; the
then-branch below is unreachable and its value is a placeholder. -/
def fit (X : List (List ℝ)) (y : List ℝ) : Except PyErr (List (ℝ × ℝ)) :=
  if "_filtered_probabalities" ∈ msrMethodNames then .ok []
  else .error .attributeError

/-- The Gram matrix A.T @ A of a 3-column-free, two-column design,
returned as the triple (a, b, c) standing for [[a, b], [b, c]]. -/
def gram (A : List (ℝ × ℝ)) : ℝ × ℝ × ℝ :=
  ((A.map fun r => r.1 * r.1).sum,
   (A.map fun r => r.1 * r.2).sum,
   (A.map fun r => r.2 * r.2).sum)

/-- The vector A.T @ b for a two-column A. -/
def atb (A : List (ℝ × ℝ)) (b : List ℝ) : ℝ × ℝ :=
  ((List.zipWith (fun r x => r.1 * x) A b).sum,
   (List.zipWith (fun r x => r.2 * x) A b).sum)

/-- Translation of MarkovSwitchingRegression._linear_solve
(lines 30-42), at the two-unknown shape the filter calls it with:
Cholesky-factorise A.T @ A as M M.T with M lower triangular, then a
forward triangular solve of M v = A.T @ b followed by a backward
triangular solve of M.T x = v.  np.linalg.cholesky raises LinAlgError
when A.T @ A is not positive definite, which for a 2 by 2 matrix
[[a, b], [b, c]] means: unless 0 < a and b^2 < a * c. -/
def linearSolve (A : List (ℝ × ℝ)) (b : List ℝ) : Except PyErr (ℝ × ℝ) :=
  let g := gram A
  let a := g.1
  let bq := g.2.1
  let c := g.2.2
  let t := atb A b
  if 0 < a ∧ bq ^ 2 < a * c then
    let m11 := Real.sqrt a
    let m21 := bq / m11
    let m22 := Real.sqrt (c - m21 ^ 2)
    let v1 := t.1 / m11
    let v2 := (t.2 - m21 * v1) / m22
    let x2 := v2 / m22
    let x1 := (v1 - m21 * x2) / m11
    .ok (x1, x2)
  else .error .linAlgError

/-- The stacked matrix of line 147, np.concatenate((ones - P, ones.T))
with ones a 2 by 1 column of ones: numpy broadcasting makes ones - P
the elementwise difference of the all-ones 2 by 2 matrix and P (not
I - P), and ones.T appends the row (1, 1). -/
def initA (P : (ℝ × ℝ) × (ℝ × ℝ)) : List (ℝ × ℝ) :=
  [(1 - P.1.1, 1 - P.1.2), (1 - P.2.1, 1 - P.2.2), ((1 : ℝ), (1 : ℝ))]

/-- Matrix-vector product P @ h for a 2 by 2 matrix. -/
def matvec (P : (ℝ × ℝ) × (ℝ × ℝ)) (h : ℝ × ℝ) : ℝ × ℝ :=
  (P.1.1 * h.1 + P.1.2 * h.2, P.2.1 * h.1 + P.2.2 * h.2)

/-- The arrays the filter loop of _loglikelihood updates in place. -/
structure LoopSt where
  hfilter : List (ℝ × ℝ)
  eta : List (ℝ × ℝ)
  predictions : List (ℝ × ℝ)
  cond : List ℝ

/-- One iteration of the filter loop of _loglikelihood (lines 161-169)
at time index t, threading the arrays and the instance attributes.
Exactly as in the source, the density row read on line 162 is eta[t]
(the row of the current index t, written only at the end of this very
iteration, hence still holding its np.zeros initialisation), the
conditional density is its weighted sum against predictions[t-1], the
filtered row is the elementwise quotient, the prediction row is
P @ hfilter[t], and finally the freshly computed densities of
observation t are stored into eta[t]. -/
def stepT (P : (ℝ × ℝ) × (ℝ × ℝ)) (theta : List ℝ) (X : List (List ℝ))
    (y : List ℝ) (acc : LoopSt × MSRState) (t : ℕ) :
    Except PyErr (LoopSt × MSRState) :=
  let L := acc.1
  let st := acc.2
  let pred := L.predictions.getD (t - 1) (0, 0)
  let etaRow := L.eta.getD t (0, 0)
  let ex : ℝ × ℝ := (pred.1 * etaRow.1, pred.2 * etaRow.2)
  let s := ex.1 + ex.2
  let cond' := L.cond.set t s
  let hrow : ℝ × ℝ := (ex.1 / s, ex.2 / s)
  let hf' := L.hfilter.set t hrow
  let pr' := L.predictions.set t (matvec P hrow)
  match normpdfST 0 (X.getD t []) (y.getD t 0) theta st with
  | (.error e, _) => .error e
  | (.ok d0, st1) =>
    match normpdfST 1 (X.getD t []) (y.getD t 0) theta st1 with
    | (.error e, _) => .error e
    | (.ok d1, st2) =>
      .ok (⟨hf', L.eta.set t (d0, d1), pr', cond'⟩, st2)

/-- The filter loop of _loglikelihood, iterated over the list of time
indices: run stepT at each index in order, aborting on the first
exception, exactly like the Python for-loop. -/
def loopSteps (P : (ℝ × ℝ) × (ℝ × ℝ)) (theta : List ℝ) (X : List (List ℝ))
    (y : List ℝ) : List ℕ → LoopSt × MSRState → Except PyErr (LoopSt × MSRState)
  | [], acc => .ok acc
  | t :: ts, acc =>
    match stepT P theta X y acc t with
    | .error e => .error e
    | .ok acc' => loopSteps P theta X y ts acc'

/-- Everything _loglikelihood computes: the four time-indexed arrays
and the returned scalar np.log(cond_density).mean(). -/
structure FilterRun where
  hfilter : List (ℝ × ℝ)
  predictions : List (ℝ × ℝ)
  eta : List (ℝ × ℝ)
  cond : List ℝ
  loglik : ℝ

/-- Translation of MarkovSwitchingRegression._loglikelihood
(lines 117-172), exposing the filter internals.  In source order: the
n by 2 arrays are allocated as zeros; theta[-2:] is passed through the
sigmoid to the stay probabilities (unpacking needs at least two
entries); the transition matrix is built; hfilter[0] is obtained by
the Cholesky least-squares solve of the stacked system of line 147
with right-hand side (0, 0, 1); predictions[0] = P @ hfilter[0]
(assigning row 0 raises IndexError when n = 0); the two regime
densities of observation 0 are stored in eta[0]; the loop of
lines 161-169 runs for t = 1 .. n-1; finally the mean of the
elementwise log of cond_density is returned. -/
def hamiltonST (X : List (List ℝ)) (y : List ℝ) (theta : List ℝ)
    (st : MSRState) : Except PyErr (FilterRun × MSRState) :=
  let n := X.length
  if theta.length < 2 then .error .valueError else
  let pii := sigmoid (theta.getD (theta.length - 2) 0)
  let pjj := sigmoid (theta.getD (theta.length - 1) 0)
  let P := transitionMatrix pii pjj
  match linearSolve (initA P) [0, 0, 1] with
  | .error e => .error e
  | .ok h0 =>
    if n = 0 then .error .indexError else
    let hfilter := (List.replicate n ((0 : ℝ), (0 : ℝ))).set 0 h0
    let predictions := (List.replicate n ((0 : ℝ), (0 : ℝ))).set 0 (matvec P h0)
    match normpdfST 0 (X.getD 0 []) (y.getD 0 0) theta st with
    | (.error e, _) => .error e
    | (.ok d0, st1) =>
      match normpdfST 1 (X.getD 0 []) (y.getD 0 0) theta st1 with
      | (.error e, _) => .error e
      | (.ok d1, st2) =>
        let eta := (List.replicate n ((0 : ℝ), (0 : ℝ))).set 0 (d0, d1)
        let cond := List.replicate n (0 : ℝ)
        match loopSteps P theta X y (List.range' 1 (n - 1))
            (⟨hfilter, eta, predictions, cond⟩, st2) with
        | .error e => .error e
        | .ok (L, st3) =>
          .ok (⟨L.hfilter, L.predictions, L.eta, L.cond,
                (L.cond.map Real.log).sum / n⟩, st3)

/-- The scalar value of _loglikelihood together with the object state. -/
def loglikelihoodST (X : List (List ℝ)) (y : List ℝ) (theta : List ℝ)
    (st : MSRState) : Except PyErr (ℝ × MSRState) :=
  (hamiltonST X y theta st).map fun rs => (rs.1.loglik, rs.2)

/-- Translation of MarkovSwitchingRegression._objective_func
(lines 174-190): the negated log-likelihood. -/
def objectiveFuncST (guess : List ℝ) (X : List (List ℝ)) (y : List ℝ)
    (st : MSRState) : Except PyErr (ℝ × MSRState) :=
  (loglikelihoodST X y guess st).map fun vs => (-vs.1, vs.2)

/-- Concrete parameter vector used by the counterexample runs:
zero coefficients for both regimes, both variances 1, both transition
logits 1 (so both stay probabilities equal sigmoid 1). -/
def thetaC : List ℝ := [0, 0, 0, 0, 1, 1, 1, 1]

/-- Concrete design matrix: two observations with rows (1, 0). -/
def XC : List (List ℝ) := [[1, 0], [1, 0]]

/-- Concrete responses. -/
def yC : List ℝ := [1, 1]

/-- A parameter vector proposing the non-positive variance -1 for
regime 0. -/
def thetaNeg : List ℝ := [0, 0, 0, 0, -1, 1, 0, 0]

/-- A parameter vector of length 9 (one trailing extra entry). -/
def theta9 : List ℝ := [0, 0, 0, 0, 1, 1, 0, 0, 0]

/-- The value _normpdf returns for every observation of the concrete
run: with zero coefficients, unit variance and response 1 it is
-(1/2)/sqrt(2 pi), which is what the missing np.exp produces. -/
def Dc : ℝ := -(1 / 2) / Real.sqrt (2 * Real.pi)

/-- The object state after any _normpdf call of the concrete run. -/
def stC : MSRState := ⟨some [0, 0], some 1, some [1, 0], some 1⟩

end

lemma sigmoid_pos (z : ℝ) : 0 < sigmoid z := by
  unfold sigmoid
  positivity

lemma sigmoid_lt_one (z : ℝ) : sigmoid z < 1 := by
  unfold sigmoid
  rw [div_lt_one (by positivity)]
  linarith [Real.exp_pos (-z)]

lemma beta_eq_ok {s : ℤ} (hs : s = 0 ∨ s = 1) (p1 p2 : List ℝ) :
    beta s p1 p2 = .ok (if s = 0 then p1 else p2) := by
  unfold beta
  rw [if_pos hs]

lemma beta_eq_err {s : ℤ} (hs : ¬(s = 0 ∨ s = 1)) (p1 p2 : List ℝ) :
    beta s p1 p2 = .error .invalidRegime := by
  unfold beta
  rw [if_neg hs]

lemma var_eq_ok {s : ℤ} (hs : s = 0 ∨ s = 1) (v1 v2 : ℝ) :
    var s v1 v2 = .ok (if s = 0 then v1 else v2) := by
  unfold var
  rw [if_pos hs]

lemma sigmoid_one_ne_half : sigmoid 1 ≠ 1 / 2 := by
  unfold sigmoid
  intro h
  have hpos : (0 : ℝ) < 1 + Real.exp (-1) := by positivity
  rw [div_eq_div_iff (ne_of_gt hpos) (by norm_num : (2 : ℝ) ≠ 0)] at h
  have he : Real.exp (-1) = 1 := by linarith
  rw [Real.exp_eq_one_iff] at he
  norm_num at he

/-- In exact arithmetic the Cholesky factorisation of the 2 by 2 matrix
[[a, bq], [bq, c]] followed by the forward and backward triangular
solves against the right-hand side (t1, t2) produces exactly the
normal-equations solution. -/
lemma chol_solve (a bq c t1 t2 : ℝ) (ha : 0 < a) (hd : bq ^ 2 < a * c) :
    ((t1 / Real.sqrt a -
        bq / Real.sqrt a *
          ((t2 - bq / Real.sqrt a * (t1 / Real.sqrt a)) /
              Real.sqrt (c - (bq / Real.sqrt a) ^ 2) /
            Real.sqrt (c - (bq / Real.sqrt a) ^ 2))) / Real.sqrt a,
      (t2 - bq / Real.sqrt a * (t1 / Real.sqrt a)) /
          Real.sqrt (c - (bq / Real.sqrt a) ^ 2) /
        Real.sqrt (c - (bq / Real.sqrt a) ^ 2)) =
      ((c * t1 - bq * t2) / (a * c - bq ^ 2),
       (a * t2 - bq * t1) / (a * c - bq ^ 2)) := by
  have ha0 : a ≠ 0 := ha.ne'
  have hdet : 0 < a * c - bq ^ 2 := by linarith
  have hdet0 : a * c - bq ^ 2 ≠ 0 := hdet.ne'
  have hsa0 : 0 < Real.sqrt a := Real.sqrt_pos.mpr ha
  have hsa2 : Real.sqrt a ^ 2 = a := Real.sq_sqrt ha.le
  have hinner : 0 < c - (bq / Real.sqrt a) ^ 2 := by
    rw [div_pow, hsa2, sub_pos, div_lt_iff ha]
    linarith [hd]
  have hs20 : 0 < Real.sqrt (c - (bq / Real.sqrt a) ^ 2) := Real.sqrt_pos.mpr hinner
  have he1 : bq / Real.sqrt a * (t1 / Real.sqrt a) = bq * t1 / a := by
    rw [div_mul_div_comm, ← pow_two, hsa2]
  have he3 : Real.sqrt (c - (bq / Real.sqrt a) ^ 2) *
      Real.sqrt (c - (bq / Real.sqrt a) ^ 2) = c - bq ^ 2 / a := by
    rw [← pow_two, Real.sq_sqrt hinner.le, div_pow, hsa2]
  have hc0 : c - bq ^ 2 / a ≠ 0 := by
    have : 0 < c - bq ^ 2 / a := by
      rw [sub_pos, div_lt_iff ha]
      linarith [hd]
    exact this.ne'
  have hx2 : (t2 - bq / Real.sqrt a * (t1 / Real.sqrt a)) /
        Real.sqrt (c - (bq / Real.sqrt a) ^ 2) /
      Real.sqrt (c - (bq / Real.sqrt a) ^ 2) =
      (a * t2 - bq * t1) / (a * c - bq ^ 2) := by
    rw [div_div, he3, he1, div_eq_div_iff hc0 hdet0]
    field_simp
    ring
  rw [hx2]
  refine Prod.ext ?_ rfl
  have hx1 : (t1 / Real.sqrt a -
        bq / Real.sqrt a * ((a * t2 - bq * t1) / (a * c - bq ^ 2))) / Real.sqrt a =
      (t1 - bq * ((a * t2 - bq * t1) / (a * c - bq ^ 2))) / a := by
    rw [div_mul_eq_mul_div, div_sub_div_same, div_div, ← pow_two, hsa2]
  rw [hx1, div_eq_div_iff ha0 hdet0]
  field_simp
  ring

/-- The least-squares solve the filter actually performs, in the
closed normal-equations form, for any design whose Gram matrix is
positive definite. -/
lemma linearSolve_eq (A : List (ℝ × ℝ)) (b : List ℝ)
    (ha : 0 < (gram A).1)
    (hd : (gram A).2.1 ^ 2 < (gram A).1 * (gram A).2.2) :
    linearSolve A b =
      .ok (((gram A).2.2 * (atb A b).1 - (gram A).2.1 * (atb A b).2) /
             ((gram A).1 * (gram A).2.2 - (gram A).2.1 ^ 2),
           ((gram A).1 * (atb A b).2 - (gram A).2.1 * (atb A b).1) /
             ((gram A).1 * (gram A).2.2 - (gram A).2.1 ^ 2)) := by
  simp only [linearSolve]
  rw [if_pos ⟨ha, hd⟩]
  exact congrArg Except.ok
    (chol_solve (gram A).1 (gram A).2.1 (gram A).2.2 (atb A b).1 (atb A b).2 ha hd)

/-- When both stay probabilities are the same value p strictly between
0 and 1 and different from 1/2, the filter's initial least-squares
solve returns (1/3, 1/3). -/
lemma linearSolve_sym (p : ℝ) (hp0 : 0 < p) (hp1 : p < 1) (hne : p ≠ 1 / 2) :
    linearSolve (initA (transitionMatrix p p)) [0, 0, 1] = .ok (1 / 3, 1 / 3) := by
  have hga : (gram (initA (transitionMatrix p p))).1 = (1 - p) ^ 2 + p ^ 2 + 1 := by
    simp [gram, initA, transitionMatrix]
    ring
  have hgb : (gram (initA (transitionMatrix p p))).2.1 = 2 * p * (1 - p) + 1 := by
    simp [gram, initA, transitionMatrix]
    ring
  have hgc : (gram (initA (transitionMatrix p p))).2.2 = (1 - p) ^ 2 + p ^ 2 + 1 := by
    simp [gram, initA, transitionMatrix]
    ring
  have hta : (atb (initA (transitionMatrix p p)) [0, 0, 1]).1 = 1 := by
    simp [atb, initA, transitionMatrix]
  have htb : (atb (initA (transitionMatrix p p)) [0, 0, 1]).2 = 1 := by
    simp [atb, initA, transitionMatrix]
  have h2p : 1 - 2 * p ≠ 0 := by
    intro h
    exact hne (by linarith)
  have hdiff : 0 < ((1 - p) ^ 2 + p ^ 2 + 1) - (2 * p * (1 - p) + 1) := by
    have h1 : ((1 - p) ^ 2 + p ^ 2 + 1) - (2 * p * (1 - p) + 1) = (1 - 2 * p) ^ 2 := by
      ring
    rw [h1]
    exact (sq_nonneg (1 - 2 * p)).lt_of_ne (Ne.symm (pow_ne_zero 2 h2p))
  have hbqpos : 0 < 2 * p * (1 - p) + 1 := by nlinarith
  have ha : (0 : ℝ) < (1 - p) ^ 2 + p ^ 2 + 1 := by positivity
  have hd : (2 * p * (1 - p) + 1) ^ 2 <
      ((1 - p) ^ 2 + p ^ 2 + 1) * ((1 - p) ^ 2 + p ^ 2 + 1) := by nlinarith
  rw [linearSolve_eq _ _ (by rw [hga]; exact ha) (by rw [hga, hgb, hgc]; exact hd)]
  rw [hga, hgb, hgc, hta, htb]
  have hdet0 : ((1 - p) ^ 2 + p ^ 2 + 1) * ((1 - p) ^ 2 + p ^ 2 + 1) -
      (2 * p * (1 - p) + 1) ^ 2 ≠ 0 := by nlinarith
  refine congrArg Except.ok (Prod.ext ?_ ?_) <;>
    · rw [div_eq_div_iff hdet0 (by norm_num : (3 : ℝ) ≠ 0)]
      ring

lemma normpdf_val :
    (1 - dot [1, 0] ([0, 0] : List ℝ)) ^ 2 / (-2 * 1) / Real.sqrt (2 * Real.pi * 1) = Dc := by
  have hd : dot [1, 0] ([0, 0] : List ℝ) = 0 := by simp [dot]
  rw [hd]
  unfold Dc
  norm_num

lemma normpdfST_c0 (st : MSRState) :
    normpdfST 0 [1, 0] 1 thetaC st = (.ok Dc, stC) := by
  have h : normpdfST 0 [1, 0] 1 thetaC st =
      (.ok ((1 - dot [1, 0] ([0, 0] : List ℝ)) ^ 2 / (-2 * 1) /
        Real.sqrt (2 * Real.pi * 1)), stC) := rfl
  rw [h, normpdf_val]

lemma normpdfST_c1 (st : MSRState) :
    normpdfST 1 [1, 0] 1 thetaC st = (.ok Dc, stC) := by
  have h : normpdfST 1 [1, 0] 1 thetaC st =
      (.ok ((1 - dot [1, 0] ([0, 0] : List ℝ)) ^ 2 / (-2 * 1) /
        Real.sqrt (2 * Real.pi * 1)), stC) := rfl
  rw [h, normpdf_val]

/-- The complete concrete run of _loglikelihood at design XC, responses
yC and parameters thetaC, with p = sigmoid 1 for both stay
probabilities.  The initial solve returns (1/3, 1/3) (and not a
probability vector); the loop at t = 1 multiplies predictions[0] by
the still-zero row eta[1], so cond_density[1] = 0 and
hfilter[1] = (0, 0) (0/0, nan in numpy). -/
lemma ham_c :
    hamiltonST XC yC thetaC st0 =
      .ok (⟨[(1 / 3, 1 / 3), (0, 0)], [(1 / 3, 1 / 3), (0, 0)],
            [(Dc, Dc), (Dc, Dc)], [0, 0], 0⟩, stC) := by
  have hp0 := sigmoid_pos 1
  have hp1 := sigmoid_lt_one 1
  have hne := sigmoid_one_ne_half
  have h6 : thetaC.getD (thetaC.length - 2) 0 = 1 := rfl
  have h7 : thetaC.getD (thetaC.length - 1) 0 = 1 := rfl
  have hX0 : XC.getD 0 [] = [1, 0] := rfl
  have hX1 : XC.getD 1 [] = [1, 0] := rfl
  have hy0 : yC.getD 0 0 = 1 := rfl
  have hy1 : yC.getD 1 0 = 1 := rfl
  have hth : ¬thetaC.length < 2 := by decide
  have hn0 : ¬XC.length = 0 := by decide
  have hr : List.range' 1 (XC.length - 1) = [1] := rfl
  have hmv : matvec (transitionMatrix (sigmoid 1) (sigmoid 1)) (1 / 3, 1 / 3) =
      ((1 : ℝ) / 3, (1 : ℝ) / 3) := by
    unfold matvec transitionMatrix
    dsimp only
    refine Prod.ext ?_ ?_ <;> ring
  have e1 : (List.replicate XC.length ((0 : ℝ), (0 : ℝ))).set 0
      ((1 : ℝ) / 3, (1 : ℝ) / 3) = [((1 : ℝ) / 3, (1 : ℝ) / 3), (0, 0)] := rfl
  have e2 : (List.replicate XC.length ((0 : ℝ), (0 : ℝ))).set 0 (Dc, Dc) =
      [(Dc, Dc), ((0 : ℝ), (0 : ℝ))] := rfl
  have e3 : (List.replicate XC.length ((0 : ℝ), (0 : ℝ))).set 0
      (matvec (transitionMatrix (sigmoid 1) (sigmoid 1)) ((1 : ℝ) / 3, (1 : ℝ) / 3)) =
      [matvec (transitionMatrix (sigmoid 1) (sigmoid 1)) ((1 : ℝ) / 3, (1 : ℝ) / 3),
       ((0 : ℝ), (0 : ℝ))] := rfl
  have e4 : List.replicate XC.length (0 : ℝ) = [0, 0] := rfl
  have hstep : stepT (transitionMatrix (sigmoid 1) (sigmoid 1)) thetaC XC yC
      (⟨[((1 : ℝ) / 3, (1 : ℝ) / 3), (0, 0)], [(Dc, Dc), ((0 : ℝ), (0 : ℝ))],
        [matvec (transitionMatrix (sigmoid 1) (sigmoid 1)) ((1 : ℝ) / 3, (1 : ℝ) / 3),
         ((0 : ℝ), (0 : ℝ))], [0, 0]⟩, stC) 1 =
      .ok (⟨[((1 : ℝ) / 3, (1 : ℝ) / 3), (0, 0)], [(Dc, Dc), (Dc, Dc)],
        [matvec (transitionMatrix (sigmoid 1) (sigmoid 1)) ((1 : ℝ) / 3, (1 : ℝ) / 3),
         ((0 : ℝ), (0 : ℝ))], [0, 0]⟩, stC) := by
    simp only [stepT, hX1, hy1, normpdfST_c0, normpdfST_c1]
    norm_num [matvec, transitionMatrix]
  simp only [hamiltonST, h6, h7, hX0, hy0]
  rw [if_neg hth, linearSolve_sym (sigmoid 1) hp0 hp1 hne]
  simp only [normpdfST_c0]
  rw [if_neg hn0]
  simp only [normpdfST_c1, hr, e1, e2, e3, e4, loopSteps, hstep]
  simp [hmv, Real.log_zero]
  unfold matvec transitionMatrix
  dsimp only
  refine Prod.ext ?_ ?_ <;> ring

/-- Claim C6: for every pair of real logits the sigmoid lands strictly
inside (0,1); the transition matrix builder returns exactly
((pii, 1 - pii), (1 - pjj, pjj)); both rows sum to 1; and all four
entries lie strictly in (0,1). -/
theorem c6_sigmoid_transition :
    ∀ z1 z2 : ℝ,
      (0 < sigmoid z1 ∧ sigmoid z1 < 1) ∧
      (0 < sigmoid z2 ∧ sigmoid z2 < 1) ∧
      transitionMatrix (sigmoid z1) (sigmoid z2) =
        ((sigmoid z1, 1 - sigmoid z1), (1 - sigmoid z2, sigmoid z2)) ∧
      ((transitionMatrix (sigmoid z1) (sigmoid z2)).1.1 +
          (transitionMatrix (sigmoid z1) (sigmoid z2)).1.2 = 1 ∧
        (transitionMatrix (sigmoid z1) (sigmoid z2)).2.1 +
          (transitionMatrix (sigmoid z1) (sigmoid z2)).2.2 = 1) ∧
      (0 < (transitionMatrix (sigmoid z1) (sigmoid z2)).1.1 ∧
          (transitionMatrix (sigmoid z1) (sigmoid z2)).1.1 < 1) ∧
      (0 < (transitionMatrix (sigmoid z1) (sigmoid z2)).1.2 ∧
          (transitionMatrix (sigmoid z1) (sigmoid z2)).1.2 < 1) ∧
      (0 < (transitionMatrix (sigmoid z1) (sigmoid z2)).2.1 ∧
          (transitionMatrix (sigmoid z1) (sigmoid z2)).2.1 < 1) ∧
      (0 < (transitionMatrix (sigmoid z1) (sigmoid z2)).2.2 ∧
          (transitionMatrix (sigmoid z1) (sigmoid z2)).2.2 < 1) := by
  intro z1 z2
  have h1 := sigmoid_pos z1
  have h2 := sigmoid_lt_one z1
  have h3 := sigmoid_pos z2
  have h4 := sigmoid_lt_one z2
  refine ⟨⟨h1, h2⟩, ⟨h3, h4⟩, rfl, ⟨?_, ?_⟩, ⟨?_, ?_⟩, ⟨?_, ?_⟩, ⟨?_, ?_⟩,
      ⟨?_, ?_⟩⟩ <;>
    · dsimp only [transitionMatrix]
      linarith

/-- Claim C3 (refuted, code bug): at regime 0, observation row (1, 0),
response 1 and parameter vector thetaC (regime-0 coefficients zero and
variance 1), _normpdf returns -(1/2)/sqrt(2 pi), a negative number,
because the source never applies np.exp; the Gaussian density the spec
prescribes is exp(-1/2)/sqrt(2 pi), which is positive, so the two
differ. -/
theorem c3_normpdf_lacks_exp :
    normpdf 0 [1, 0] 1 thetaC = .ok (-(1 / 2) / Real.sqrt (2 * Real.pi)) ∧
    -(1 / 2 : ℝ) / Real.sqrt (2 * Real.pi) <
      specGaussianDensity (dot [1, 0] [0, 0]) 1 1 := by
  constructor
  · have h : normpdf 0 [1, 0] 1 thetaC =
        .ok ((1 - dot [1, 0] [0, 0]) ^ 2 / (-2 * 1) / Real.sqrt (2 * Real.pi * 1)) := rfl
    rw [h]
    have hd : dot [1, 0] ([0, 0] : List ℝ) = 0 := by
      simp [dot]
    rw [hd]
    norm_num
  · have hs : 0 < Real.sqrt (2 * Real.pi) := Real.sqrt_pos.mpr (by positivity)
    have hgd : 0 < specGaussianDensity (dot [1, 0] [0, 0]) 1 1 := by
      unfold specGaussianDensity
      have h1 : 0 < Real.sqrt (2 * Real.pi * 1) := Real.sqrt_pos.mpr (by positivity)
      positivity
    have hneg : -(1 / 2 : ℝ) / Real.sqrt (2 * Real.pi) < 0 :=
      div_neg_of_neg_of_pos (by norm_num) hs
    linarith

/-- Claim C7 (refuted, code bug): with a proposed regime-0 variance of
-1 the evaluator raises nothing at all: the call returns normally
(in floating point it silently produces nan, here the exact-arithmetic
value) instead of failing fast with the NonPositiveVarianceError the
spec requires. -/
theorem c7_no_variance_guard :
    isOk (normpdf 0 [1, 0] 1 thetaNeg) = true ∧
    thetaNeg.getD 4 0 = -1 ∧ (-1 : ℝ) < 0 :=
  ⟨rfl, rfl, by norm_num⟩

/-- Claim C8: for any regime index outside {0, 1} the density evaluator
raises the invalid-regime error (the ValueError of _beta, which the
spec names InvalidRegimeError), and for an index in {0, 1} it never
raises that error, whatever the observation and parameter vector. -/
theorem c8_invalid_regime_boundary :
    ∀ (s : ℤ) (xt : List ℝ) (yt : ℝ) (guess : List ℝ),
      (¬(s = 0 ∨ s = 1) → normpdf s xt yt guess = .error .invalidRegime) ∧
      ((s = 0 ∨ s = 1) → normpdf s xt yt guess ≠ .error .invalidRegime) := by
  intro s xt yt guess
  constructor
  · intro hs
    simp only [normpdf]
    rw [beta_eq_err hs]
  · intro hs
    simp only [normpdf]
    rw [beta_eq_ok hs]
    cases h0 : ((guess.take (guess.length - 2)).drop 4).get? 0 with
    | none => simp [h0]
    | some v1 =>
      cases h1 : ((guess.take (guess.length - 2)).drop 4).get? 1 with
      | none => simp [h0, h1]
      | some v2 =>
        simp only [h0, h1, var_eq_ok hs]
        split <;> split <;> simp

/-- Witness for claim C8 at the concrete boundary: regime index 2
raises the invalid-regime error, regime index 0 does not. -/
theorem c8_invalid_regime_witness :
    normpdf 2 [1, 0] 1 thetaC = .error .invalidRegime ∧
    normpdf 0 [1, 0] 1 thetaC ≠ .error .invalidRegime :=
  ⟨(c8_invalid_regime_boundary 2 [1, 0] 1 thetaC).1 (by decide),
   (c8_invalid_regime_boundary 0 [1, 0] 1 thetaC).2 (Or.inl rfl)⟩

/-- Claim C10 (refuted as stated): a density evaluation is perfectly
well defined for a parameter vector of length 9, so well-definedness
does not force length exactly 8. -/
theorem c10_counterexample :
    isOk (normpdf 0 [1, 0] 0 theta9) = true ∧ theta9.length = 9 :=
  ⟨rfl, rfl⟩

/-- Claim C10 as amended: for a valid regime index, a density
evaluation returns normally exactly when the parameter vector has
length at least 8 (the hard-coded offsets guess[0:2], guess[2:4],
guess[4], guess[5] then exist) and the design row has exactly 2
entries (the length the hard-coded coefficient blocks force). -/
theorem c10_layout_amended :
    ∀ (s : ℤ) (xt : List ℝ) (yt : ℝ) (guess : List ℝ), (s = 0 ∨ s = 1) →
      (isOk (normpdf s xt yt guess) = true ↔ 8 ≤ guess.length ∧ xt.length = 2) := by
  intro s xt yt guess hs
  simp only [normpdf]
  rw [beta_eq_ok hs]
  have hlen2 : ((guess.take (guess.length - 2)).drop 4).length = guess.length - 6 := by
    simp only [List.length_drop, List.length_take]
    omega
  by_cases h8 : 8 ≤ guess.length
  · have hn0 : ((guess.take (guess.length - 2)).drop 4).get? 0 ≠ none := by
      intro hnone
      rw [List.get?_eq_none] at hnone
      omega
    have hn1 : ((guess.take (guess.length - 2)).drop 4).get? 1 ≠ none := by
      intro hnone
      rw [List.get?_eq_none] at hnone
      omega
    obtain ⟨v1, hv1⟩ := Option.ne_none_iff_exists'.mp hn0
    obtain ⟨v2, hv2⟩ := Option.ne_none_iff_exists'.mp hn1
    have hb : (if s = 0 then (guess.take 4).take 2 else (guess.take 4).drop 2).length = 2 := by
      rcases hs with hs | hs <;>
        simp only [hs, if_pos, if_neg, List.length_take, List.length_drop] <;>
        first
        | omega
        | (rw [if_neg (by norm_num : ¬(1 : ℤ) = 0)]; simp only [List.length_drop, List.length_take]; omega)
    simp only [hv1, hv2, var_eq_ok hs, hb]
    by_cases hx : xt.length = 2 <;> simp [hx, isOk, h8]
  · have hn1 : ((guess.take (guess.length - 2)).drop 4).get? 1 = none := by
      rw [List.get?_eq_none]
      omega
    cases h0 : ((guess.take (guess.length - 2)).drop 4).get? 0 with
    | none =>
      simp only [h0, hn1]
      simp [isOk, h8]
    | some v1 =>
      simp only [h0, hn1]
      simp [isOk, h8]

/-- Witness for the amended claim C10: at regime 0, a length-2 row and
the length-8 vector thetaC the evaluation returns normally. -/
theorem c10_layout_witness : isOk (normpdf 0 [1, 0] 1 thetaC) = true :=
  (c10_layout_amended 0 [1, 0] 1 thetaC (Or.inl rfl)).mpr (by decide)

/-- Claim C1 (refuted, code bug): in the concrete run (thetaC with
positive variances, n = 2 observations) the code produces
cond_density[1] = 0 while predictions[0] = (1/3, 1/3), even though the
sum over regimes of predictions[0][s] times the Gaussian density of
observation 1 under regime s is strictly positive: the loop consumes
eta_t[1] before writing it (it still holds its zero initialisation),
so the densities computed for time t are never the ones consumed at
time t, and hfilter[1] = 0/0 rather than a normalised weight vector. -/
theorem c1_density_alignment :
    Except.map (fun rs => ((rs.1).cond.getD 1 42, (rs.1).predictions.getD 0 (42, 42)))
        (hamiltonST XC yC thetaC st0) = .ok (0, (1 / 3, 1 / 3)) ∧
    0 < 1 / 3 * specGaussianDensity (dot [1, 0] [0, 0]) 1 1 +
        1 / 3 * specGaussianDensity (dot [1, 0] [0, 0]) 1 1 := by
  constructor
  · rw [ham_c]
    rfl
  · have h : 0 < specGaussianDensity (dot [1, 0] [0, 0]) 1 1 := by
      unfold specGaussianDensity
      have hs : 0 < Real.sqrt (2 * Real.pi * 1) := Real.sqrt_pos.mpr (by positivity)
      positivity
    linarith

/-- Claim C4 (refuted, code bug): in the concrete run the code seeds
hfilter[0] = (1/3, 1/3), which is not a solution of the claimed
stacked system [(I - P); ones-row] h = [0; 1] (its normalisation row
demands the components sum to 1, but they sum to 2/3) and not the
ergodic distribution: the source actually least-squares-solves
[ones-matrix - P; ones-row] because of numpy broadcasting, and then
sets predictions[0] = P times hfilter[0], not P-transpose times it. -/
theorem c4_init_not_stationary :
    Except.map (fun rs => (rs.1).hfilter.getD 0 (42, 42)) (hamiltonST XC yC thetaC st0) =
      .ok (1 / 3, 1 / 3) ∧
    (1 : ℝ) / 3 + 1 / 3 < 1 := by
  constructor
  · rw [ham_c]
    rfl
  · norm_num

/-- Claim C5 (refuted, code bug): in the concrete run (positive
variances) the rows of hfilter sum to 2/3 and 0, not 1: the
least-squares seed is not normalised, and every later row is the
0/0 quotient of the off-by-one recursion. -/
theorem c5_rows_not_distributions :
    Except.map (fun rs => (rs.1).hfilter.map fun r => r.1 + r.2)
        (hamiltonST XC yC thetaC st0) = .ok [1 / 3 + 1 / 3, 0 + 0] ∧
    (1 : ℝ) / 3 + 1 / 3 < 1 ∧ (0 : ℝ) + 0 < 1 := by
  refine ⟨?_, by norm_num, by norm_num⟩
  rw [ham_c]
  rfl

lemma normpdfST_fst (s : ℤ) (xt : List ℝ) (yt : ℝ) (g : List ℝ)
    (st st' : MSRState) :
    (normpdfST s xt yt g st).1 = (normpdfST s xt yt g st').1 := by
  simp only [normpdfST]
  cases hb : beta s ((List.take 4 g).take 2) ((List.take 4 g).drop 2) with
  | error e => simp [hb]
  | ok b =>
    cases h0 : ((g.take (g.length - 2)).drop 4).get? 0 with
    | none => simp [hb, h0]
    | some v1 =>
      cases h1 : ((g.take (g.length - 2)).drop 4).get? 1 with
      | none => simp [hb, h0, h1]
      | some v2 =>
        cases hv : var s v1 v2 with
        | error e => simp [hb, h0, h1, hv]
        | ok v => simp only [hb, h0, h1, hv]

lemma stepT_fst (P : (ℝ × ℝ) × (ℝ × ℝ)) (theta : List ℝ) (X : List (List ℝ))
    (y : List ℝ) (L : LoopSt) (st st' : MSRState) (t : ℕ) :
    Except.map Prod.fst (stepT P theta X y (L, st) t) =
      Except.map Prod.fst (stepT P theta X y (L, st') t) := by
  have hd0 := normpdfST_fst 0 (X.getD t []) (y.getD t 0) theta st st'
  simp only [stepT]
  rcases hA : normpdfST 0 (X.getD t []) (y.getD t 0) theta st with ⟨r0, s0⟩
  rcases hB : normpdfST 0 (X.getD t []) (y.getD t 0) theta st' with ⟨r0', s0'⟩
  rw [hA, hB] at hd0
  dsimp at hd0
  subst hd0
  cases r0 with
  | error e => rfl
  | ok d0 =>
    dsimp only
    have hd1 := normpdfST_fst 1 (X.getD t []) (y.getD t 0) theta s0 s0'
    rcases hC : normpdfST 1 (X.getD t []) (y.getD t 0) theta s0 with ⟨r1, s1⟩
    rcases hD : normpdfST 1 (X.getD t []) (y.getD t 0) theta s0' with ⟨r1', s1'⟩
    rw [hC, hD] at hd1
    dsimp at hd1
    subst hd1
    cases r1 with
    | error e => rfl
    | ok d1 => rfl

lemma loopSteps_fst (P : (ℝ × ℝ) × (ℝ × ℝ)) (theta : List ℝ) (X : List (List ℝ))
    (y : List ℝ) :
    ∀ (l : List ℕ) (L : LoopSt) (st st' : MSRState),
      Except.map Prod.fst (loopSteps P theta X y l (L, st)) =
        Except.map Prod.fst (loopSteps P theta X y l (L, st')) := by
  intro l
  induction l with
  | nil =>
    intro L st st'
    rfl
  | cons t ts ih =>
    intro L st st'
    have h := stepT_fst P theta X y L st st' t
    simp only [loopSteps]
    rcases hA : stepT P theta X y (L, st) t with e | ⟨L1, s1⟩ <;>
      rcases hB : stepT P theta X y (L, st') t with e' | ⟨L1', s1'⟩ <;>
        rw [hA, hB] at h <;> simp only [Except.map] at h
    · injection h with h'
      subst h'
      rfl
    · exact absurd h (by simp)
    · exact absurd h (by simp)
    · injection h with h'
      subst h'
      exact ih L1 s1 s1'

lemma hamiltonST_fst (X : List (List ℝ)) (y : List ℝ) (theta : List ℝ)
    (st st' : MSRState) :
    Except.map Prod.fst (hamiltonST X y theta st) =
      Except.map Prod.fst (hamiltonST X y theta st') := by
  simp only [hamiltonST]
  by_cases hth : theta.length < 2
  · rw [if_pos hth, if_pos hth]
  · rw [if_neg hth, if_neg hth]
    cases hls : linearSolve (initA (transitionMatrix
        (sigmoid (theta.getD (theta.length - 2) 0))
        (sigmoid (theta.getD (theta.length - 1) 0)))) [0, 0, 1] with
    | error e => rfl
    | ok h0 =>
      dsimp only
      by_cases hn : X.length = 0
      · rw [if_pos hn, if_pos hn]
      · rw [if_neg hn, if_neg hn]
        have hd0 := normpdfST_fst 0 (X.getD 0 []) (y.getD 0 0) theta st st'
        rcases hA : normpdfST 0 (X.getD 0 []) (y.getD 0 0) theta st with ⟨r0, s0⟩
        rcases hB : normpdfST 0 (X.getD 0 []) (y.getD 0 0) theta st' with ⟨r0', s0'⟩
        rw [hA, hB] at hd0
        dsimp at hd0
        subst hd0
        cases r0 with
        | error e => rfl
        | ok d0 =>
          dsimp only
          have hd1 := normpdfST_fst 1 (X.getD 0 []) (y.getD 0 0) theta s0 s0'
          rcases hC : normpdfST 1 (X.getD 0 []) (y.getD 0 0) theta s0 with ⟨r1, s1⟩
          rcases hD : normpdfST 1 (X.getD 0 []) (y.getD 0 0) theta s0' with ⟨r1', s1'⟩
          rw [hC, hD] at hd1
          dsimp at hd1
          subst hd1
          cases r1 with
          | error e => rfl
          | ok d1 =>
            dsimp only
            have hl := loopSteps_fst (transitionMatrix
                (sigmoid (theta.getD (theta.length - 2) 0))
                (sigmoid (theta.getD (theta.length - 1) 0))) theta X y
              (List.range' 1 (X.length - 1))
              ⟨(List.replicate X.length ((0 : ℝ), (0 : ℝ))).set 0 h0,
               (List.replicate X.length ((0 : ℝ), (0 : ℝ))).set 0 (d0, d1),
               (List.replicate X.length ((0 : ℝ), (0 : ℝ))).set 0
                 (matvec (transitionMatrix (sigmoid (theta.getD (theta.length - 2) 0))
                   (sigmoid (theta.getD (theta.length - 1) 0))) h0),
               List.replicate X.length (0 : ℝ)⟩ s1 s1'
            rcases hE : loopSteps (transitionMatrix
                (sigmoid (theta.getD (theta.length - 2) 0))
                (sigmoid (theta.getD (theta.length - 1) 0))) theta X y
                (List.range' 1 (X.length - 1))
                (⟨(List.replicate X.length ((0 : ℝ), (0 : ℝ))).set 0 h0,
                  (List.replicate X.length ((0 : ℝ), (0 : ℝ))).set 0 (d0, d1),
                  (List.replicate X.length ((0 : ℝ), (0 : ℝ))).set 0
                    (matvec (transitionMatrix (sigmoid (theta.getD (theta.length - 2) 0))
                      (sigmoid (theta.getD (theta.length - 1) 0))) h0),
                  List.replicate X.length (0 : ℝ)⟩, s1) with e | ⟨L, s3⟩ <;>
              rcases hF : loopSteps (transitionMatrix
                  (sigmoid (theta.getD (theta.length - 2) 0))
                  (sigmoid (theta.getD (theta.length - 1) 0))) theta X y
                  (List.range' 1 (X.length - 1))
                  (⟨(List.replicate X.length ((0 : ℝ), (0 : ℝ))).set 0 h0,
                    (List.replicate X.length ((0 : ℝ), (0 : ℝ))).set 0 (d0, d1),
                    (List.replicate X.length ((0 : ℝ), (0 : ℝ))).set 0
                      (matvec (transitionMatrix (sigmoid (theta.getD (theta.length - 2) 0))
                        (sigmoid (theta.getD (theta.length - 1) 0))) h0),
                    List.replicate X.length (0 : ℝ)⟩, s1') with e' | ⟨L', s3'⟩ <;>
                rw [hE, hF] at hl <;> simp only [Except.map] at hl <;>
                  simp only [hE, hF]
            · injection hl with hl'
              subst hl'
              rfl
            · exact absurd hl (by simp)
            · exact absurd hl (by simp)
            · injection hl with hl'
              subst hl'
              rfl

/-- Claim C9: the objective is deterministic: its value at (guess, X, y)
is the same whatever the instance attributes held before the call, so
two successive evaluations with identical arguments return identical
values and the attributes _normpdf overwrites (beta, var, xt, yt)
never influence a later evaluation's result. -/
theorem c9_objective_deterministic :
    ∀ (guess : List ℝ) (X : List (List ℝ)) (y : List ℝ) (st1 st2 : MSRState),
      Except.map Prod.fst (objectiveFuncST guess X y st1) =
        Except.map Prod.fst (objectiveFuncST guess X y st2) := by
  intro guess X y st1 st2
  unfold objectiveFuncST loglikelihoodST
  have h := hamiltonST_fst X y guess st1 st2
  rcases hA : hamiltonST X y guess st1 with e | ⟨r, s⟩ <;>
    rcases hB : hamiltonST X y guess st2 with e' | ⟨r', s'⟩ <;>
      rw [hA, hB] at h <;> simp only [Except.map] at h <;> simp only [hA, hB, Except.map]
  · injection h with h'
    subst h'
    rfl
  · exact absurd h (by simp)
  · exact absurd h (by simp)
  · injection h with h'
    subst h'
    rfl

/-- Claim C2 (refuted, code bug): fit never reaches any minimizer and
never returns a fitted model: line 234 calls the undefined method
_filtered_probabalities, so every call raises AttributeError. -/
theorem c2_fit_always_attribute_error :
    ∀ (X : List (List ℝ)) (y : List ℝ), fit X y = .error .attributeError :=
  fun _ _ => rfl

end MSR
